import Mathlib

/-!
Verification development for the MNIST classifier notebook
(neural-network-tensorflow.ipynb).

The notebook is a linear script: it loads the MNIST dataset, rescales the
pixel intensities with `scale`, shuffles the training split, carves off a
validation partition with take/skip, batches the three partitions, builds a
Sequential model (Flatten, Dense 50 relu, Dense 50 relu, Dense 10 softmax),
fits it for NUM_EPOCHS epochs with per-epoch validation, and evaluates once
on the test partition, reporting loss and accuracy.

Datasets are embedded as Lean lists of samples; tensors of pixel
intensities as lists of naturals; the exact rational numbers ℚ (and the
reals ℝ where the exponential function is needed) stand in for the
notebook's float32 arithmetic.
-/

/-- A preprocessed MNIST sample: the scaled image (a flat list of exact
rational pixel values) paired with its integer class label.  This is the
element type of the datasets after `mnist_train.map(scale)`. -/
abbrev Sample : Type := List ℚ × ℕ

/-- Embedding of the notebook's `scale(image, label)`: the image is cast to
float and every element is divided by 255; the label is passed through
unchanged.  The raw image is a list of pixel intensities (uint8 values
0..255 in the notebook). -/
def scale (image : List ℕ) (label : ℕ) : List ℚ × ℕ :=
  (image.map (fun p : ℕ => (p : ℚ) / 255), label)

/-- The example count of the MNIST train split, from the dataset metadata
`mnist_info.splits['train'].num_examples`. -/
def numTrainExamples : ℕ := 60000

/-- The example count of the MNIST test split, from the dataset metadata
`mnist_info.splits['test'].num_examples`. -/
def numTestExamples : ℕ := 10000

/-- Embedding of `num_validation_samples = tf.cast(0.1 *
mnist_info.splits['train'].num_examples, tf.int64)`.  The cast truncates
toward zero, which on this nonnegative value is the floor. -/
def num_validation_samples : ℕ := (⌊(1 / 10 : ℚ) * (numTrainExamples : ℚ)⌋).toNat

/-- Embedding of `num_test_samples = tf.cast(mnist_info.splits['test'].num_examples, tf.int64)`. -/
def num_test_samples : ℕ := numTestExamples

/-- The notebook's shuffle buffer size. -/
def BUFFER_SIZE : ℕ := 10000

/-- The notebook's training batch size. -/
def BATCH_SIZE : ℕ := 100

/-- The notebook's number of training epochs. -/
def NUM_EPOCHS : ℕ := 5

/-- Embedding of `tf.data.Dataset.batch(b)`: group a dataset into
consecutive batches of `b` samples each; a final batch may be smaller when
`b` does not divide the dataset size.  (For `b = 0`, which the notebook
never uses, we return no batches.) -/
def batch (b : ℕ) (l : List Sample) : List (List Sample) :=
  if h : b = 0 ∨ l = [] then []
  else l.take b :: batch b (l.drop b)
termination_by l.length
decreasing_by
  push_neg at h
  have hb : 0 < b := Nat.pos_of_ne_zero h.1
  have hl : 0 < l.length := List.length_pos.mpr h.2
  simp only [List.length_drop]
  omega

/-- Embedding of `validation_data = shuffled_train_and_validation_data.take(num_validation_samples)`,
as a function of the shuffled training split. -/
def validation_data (shuffled : List Sample) : List Sample :=
  shuffled.take num_validation_samples

/-- Embedding of `train_data = shuffled_train_and_validation_data.skip(num_validation_samples)`. -/
def train_data (shuffled : List Sample) : List Sample :=
  shuffled.drop num_validation_samples

/-- Embedding of `train_data = train_data.batch(BATCH_SIZE)`. -/
def train_batched (shuffled : List Sample) : List (List Sample) :=
  batch BATCH_SIZE (train_data shuffled)

/-- Embedding of `validation_data = validation_data.batch(num_validation_samples)`. -/
def validation_batched (shuffled : List Sample) : List (List Sample) :=
  batch num_validation_samples (validation_data shuffled)

/-- Embedding of `test_data = test_data.batch(num_test_samples)`, as a
function of the scaled test split. -/
def test_batched (test : List Sample) : List (List Sample) :=
  batch num_test_samples test

/-- Activation functions used by the notebook's Dense layers. -/
inductive Activation : Type
  | relu : Activation
  | softmax : Activation
deriving DecidableEq

/-- A Keras layer specification as written in the notebook: either a
Flatten layer with an input shape, or a Dense layer with a unit count and
an activation. -/
inductive LayerSpec : Type
  | Flatten : ℕ × ℕ × ℕ → LayerSpec
  | Dense : ℕ → Activation → LayerSpec
deriving DecidableEq

/-- The notebook's `input_size = 784`. -/
def input_size : ℕ := 784

/-- The notebook's `output_size = 10`. -/
def output_size : ℕ := 10

/-- The notebook's `hidden_layer_size = 50`. -/
def hidden_layer_size : ℕ := 50

/-- Embedding of the notebook's `model = tf.keras.Sequential([...])`: the
ordered list of layer specifications passed to the Sequential constructor. -/
def model : List LayerSpec :=
  [LayerSpec.Flatten (28, 28, 1),
   LayerSpec.Dense hidden_layer_size Activation.relu,
   LayerSpec.Dense hidden_layer_size Activation.relu,
   LayerSpec.Dense output_size Activation.softmax]

/-- Output dimension of one layer given its input dimension: Flatten
multiplies out its input shape, Dense outputs its unit count. -/
def layerOut : LayerSpec → ℕ → ℕ
  | LayerSpec.Flatten s, _ => s.1 * s.2.1 * s.2.2
  | LayerSpec.Dense u _, _ => u

/-- Output dimension of a Sequential stack of layers, fed an input of
dimension `d`. -/
def modelOutputDim (layers : List LayerSpec) (d : ℕ) : ℕ :=
  layers.foldl (fun acc ls => layerOut ls acc) d

/-- Parameters of a Dense layer from inputs of dimension `m` to outputs of
dimension `n`: a weight matrix and a bias vector.  The spec treats the
model as an opaque parameterized function, so the parameters are left
abstract. -/
structure DenseParams (m n : ℕ) : Type where
  weight : Fin n → Fin m → ℝ
  bias : Fin n → ℝ

/-- The affine part of `tf.keras.layers.Dense`: `dot(input, weight) + bias`. -/
noncomputable def denseAffine {m n : ℕ} (p : DenseParams m n) (x : Fin m → ℝ) :
    Fin n → ℝ :=
  fun i => (∑ j, p.weight i j * x j) + p.bias i

/-- The relu activation, applied componentwise. -/
def reluVec {n : ℕ} (v : Fin n → ℝ) : Fin n → ℝ :=
  fun i => max 0 (v i)

/-- The softmax activation of the output layer: each component is the
exponential of the corresponding logit divided by the sum of all the
exponentials. -/
noncomputable def softmax {n : ℕ} (z : Fin n → ℝ) : Fin n → ℝ :=
  fun i => Real.exp (z i) / ∑ j, Real.exp (z j)

/-- Embedding of `tf.keras.layers.Flatten(input_shape=(28, 28, 1))`: a
28×28×1 image tensor becomes a vector of 784 components, row-major. -/
def flattenImage (img : Fin 28 → Fin 28 → ℝ) : Fin 784 → ℝ :=
  fun i => img ⟨i.val / 28, by omega⟩ ⟨i.val % 28, by omega⟩

/-- The trainable parameters of the notebook's model: one Dense layer
784 → 50, one 50 → 50, one 50 → 10. -/
structure ModelParams : Type where
  layer1 : DenseParams 784 50
  layer2 : DenseParams 50 50
  layer3 : DenseParams 50 10

/-- Forward evaluation of the notebook's model at parameters `p`:
Flatten, Dense 50 relu, Dense 50 relu, Dense 10 softmax. -/
noncomputable def modelForward (p : ModelParams) (img : Fin 28 → Fin 28 → ℝ) :
    Fin 10 → ℝ :=
  softmax (denseAffine p.layer3
    (reluVec (denseAffine p.layer2
      (reluVec (denseAffine p.layer1 (flattenImage img))))))

/-- Observable events of the training loop: processing one training batch,
or evaluating the validation data. -/
inductive FitEvent : Type
  | trainBatch : FitEvent
  | validate : FitEvent
deriving DecidableEq

/-- One epoch of `model.fit`: a complete pass over all `nb` training
batches, followed by one evaluation of the validation data. -/
def epochBlock (nb : ℕ) : List FitEvent :=
  List.replicate nb FitEvent.trainBatch ++ [FitEvent.validate]

/-- Modelled from the spec: the training loop of
`model.fit(train_data, epochs=NUM_EPOCHS, validation_data=(validation_inputs, validation_targets), verbose=2)`
is library code not present in the repository; per the spec it runs a fixed
number of complete passes over the batched training data, checking
held-out validation performance after each pass.  `fitTrace e nb` is the
event trace of fitting for `e` epochs over `nb` training batches. -/
def fitTrace (epochs nb : ℕ) : List FitEvent :=
  match epochs with
  | 0 => []
  | e + 1 => epochBlock nb ++ fitTrace e nb

/-- The successive stages of the notebook, in program order. -/
inductive ScriptStep : Type
  | loadData : ScriptStep
  | preprocess : ScriptStep
  | buildModel : ScriptStep
  | compileModel : ScriptStep
  | fitModel : ScriptStep
  | evaluateModel : ScriptStep
  | report : ScriptStep
deriving DecidableEq

/-- The notebook as a linear sequence of stages: load MNIST, scale /
shuffle / split / batch, build the Sequential model, compile it, fit it,
evaluate it on the test data, print the result. -/
def script : List ScriptStep :=
  [ScriptStep.loadData, ScriptStep.preprocess, ScriptStep.buildModel,
   ScriptStep.compileModel, ScriptStep.fitModel, ScriptStep.evaluateModel,
   ScriptStep.report]

/-- The pair returned by `model.evaluate(test_data)`: the test loss and the
test accuracy. -/
structure EvalResult : Type where
  loss : ℚ
  accuracy : ℚ

/-- Embedding of the final print: both values returned by the evaluation
appear in the report, the accuracy scaled by 100 into a percentage. -/
def reportMessage (r : EvalResult) : ℚ × ℚ :=
  (r.loss, r.accuracy * 100)

-- Helper lemmas about `batch` (shared by several claims). --

/-- Unfolding equation for `batch` in the nonempty, positive-size case. -/
theorem batch_cons (b : ℕ) (l : List Sample) (hb : b ≠ 0) (hl : l ≠ []) :
    batch b l = l.take b :: batch b (l.drop b) := by
  rw [batch]
  simp [hb, hl]

/-- `batch` of the empty dataset yields no batches. -/
theorem batch_nil (b : ℕ) : batch b [] = [] := by
  rw [batch]
  simp

/-- A dataset whose size is at most the batch size forms one single batch. -/
theorem batch_single (b : ℕ) (l : List Sample) (hb : b ≠ 0) (hl : l ≠ [])
    (hlen : l.length ≤ b) : batch b l = [l] := by
  rw [batch_cons b l hb hl, List.take_of_length_le hlen,
    List.drop_eq_nil_of_le hlen, batch_nil]

-- Helper lemmas about `epochBlock` and `fitTrace`. --

/-- The validation count of a prefix of one epoch block never exceeds the
completed-pass bound: `nb` training batches per validation. -/
theorem epochBlock_take_count (nb k : ℕ) :
    nb * (((epochBlock nb).take k).count FitEvent.validate) ≤
      ((epochBlock nb).take k).count FitEvent.trainBatch := by
  rw [epochBlock, List.take_append_eq_append_take]
  rcases le_or_lt k nb with h | h
  · have h0 : k - (List.replicate nb FitEvent.trainBatch).length = 0 := by
      simp
      omega
    rw [h0, List.take_zero, List.take_replicate]
    simp [List.count_replicate]
  · have hall : (List.replicate nb FitEvent.trainBatch).take k =
        List.replicate nb FitEvent.trainBatch := by
      apply List.take_of_length_le
      simp
      omega
    have h1 : k - (List.replicate nb FitEvent.trainBatch).length ≠ 0 := by
      simp
      omega
    have hsing : ([FitEvent.validate].take
        (k - (List.replicate nb FitEvent.trainBatch).length)) = [FitEvent.validate] := by
      apply List.take_of_length_le
      simp
      omega
    rw [hall, hsing]
    simp [List.count_append, List.count_replicate]

/-- The number of validation evaluations in a fit trace equals the number
of epochs. -/
theorem fitTrace_count_validate (e nb : ℕ) :
    (fitTrace e nb).count FitEvent.validate = e := by
  induction e with
  | zero => simp [fitTrace]
  | succ e ih =>
    rw [fitTrace, List.count_append, ih, epochBlock, List.count_append]
    simp [List.count_replicate]
    omega

/-- The number of processed training batches in a fit trace is epochs
times batches per epoch. -/
theorem fitTrace_count_trainBatch (e nb : ℕ) :
    (fitTrace e nb).count FitEvent.trainBatch = e * nb := by
  induction e with
  | zero => simp [fitTrace]
  | succ e ih =>
    rw [fitTrace, List.count_append, ih, epochBlock, List.count_append]
    simp [List.count_replicate]
    ring

/-- The fit trace is finite, of length epochs times (batches + 1). -/
theorem fitTrace_length (e nb : ℕ) :
    (fitTrace e nb).length = e * (nb + 1) := by
  induction e with
  | zero => simp [fitTrace]
  | succ e ih =>
    rw [fitTrace, List.length_append, ih, epochBlock]
    simp
    ring

/-- In every prefix of the fit trace, each validation evaluation is
covered by a full completed pass of `nb` training batches. -/
theorem fitTrace_take_count (e : ℕ) : ∀ (nb k : ℕ),
    nb * (((fitTrace e nb).take k).count FitEvent.validate) ≤
      ((fitTrace e nb).take k).count FitEvent.trainBatch := by
  induction e with
  | zero =>
    intro nb k
    simp [fitTrace]
  | succ e ih =>
    intro nb k
    rw [fitTrace, List.take_append_eq_append_take, List.count_append,
      List.count_append, Nat.mul_add]
    exact Nat.add_le_add (epochBlock_take_count nb k) (ih nb _)

/-- When the batch size divides the dataset size, every batch has exactly
the batch size and the number of batches is the quotient. -/
theorem batch_spec (b : ℕ) (hb : b ≠ 0) :
    ∀ (n : ℕ) (l : List Sample), l.length = n → b ∣ n →
      (∀ c ∈ batch b l, c.length = b) ∧ (batch b l).length = n / b := by
  intro n
  induction n using Nat.strong_induction_on with
  | _ n ih =>
    intro l hl hd
    by_cases h0 : l = []
    · subst h0
      simp at hl
      subst hl
      simp [batch_nil]
    · have hpos : 0 < l.length := List.length_pos.mpr h0
      obtain ⟨k, hk⟩ := hd
      have hk0 : k ≠ 0 := by
        rintro rfl
        omega
      have hble : b ≤ n := by
        calc b = b * 1 := (Nat.mul_one b).symm
        _ ≤ b * k := Nat.mul_le_mul_left b (Nat.one_le_iff_ne_zero.mpr hk0)
        _ = n := hk.symm
      have hdroplen : (l.drop b).length = n - b := by
        simp [List.length_drop, hl]
      have hsub : n - b = b * (k - 1) := by
        rcases Nat.exists_eq_succ_of_ne_zero hk0 with ⟨k', rfl⟩
        simp [hk, Nat.mul_succ]
      have hlt : n - b < n := by omega
      have ihres := ih (n - b) hlt (l.drop b) hdroplen ⟨k - 1, hsub⟩
      rw [batch_cons b l hb h0]
      constructor
      · intro c hc
        rcases List.mem_cons.mp hc with h | h
        · subst h
          simp [List.length_take, hl]
          omega
        · exact ihres.1 c h
      · have hq : (n - b) / b = k - 1 := by
          rw [hsub, Nat.mul_div_cancel_left _ (Nat.pos_of_ne_zero hb)]
        have hq2 : n / b = k := by
          rw [hk, Nat.mul_div_cancel_left _ (Nat.pos_of_ne_zero hb)]
        simp [ihres.2, hq, hq2]
        omega

-- Shared arithmetic fact about the validation split size. --

/-- The truncated cast of 0.1 times the 60000 train examples is 6000. -/
theorem num_validation_samples_eq : num_validation_samples = 6000 := by
  have h : ((1 / 10 : ℚ) * (numTrainExamples : ℚ)) = ((6000 : ℕ) : ℚ) := by
    norm_num [numTrainExamples]
  rw [num_validation_samples, h, Int.floor_natCast]
  rfl

-- Claim theorems. --

/-- Claim C1: for every MNIST image whose pixel intensities lie in the
integer range 0..255, `scale` casts the image to float and divides every
element by 255, so every element of the returned image lies in the
normalized range 0 to 1. -/
theorem scale_normalizes (image : List ℕ) (label : ℕ)
    (h : ∀ p ∈ image, p ≤ 255) :
    ∀ q ∈ (scale image label).1, 0 ≤ q ∧ q ≤ 1 := by
  intro q hq
  have hq' : q ∈ image.map (fun p : ℕ => (p : ℚ) / 255) := hq
  obtain ⟨p, hp, hpq⟩ := List.mem_map.mp hq'
  subst hpq
  refine ⟨div_nonneg (Nat.cast_nonneg p) (by norm_num), ?_⟩
  rw [div_le_one (by norm_num : (0 : ℚ) < 255)]
  exact_mod_cast h p hp

/-- Witness for C1 at a concrete image containing the extreme and a middle
intensity. -/
theorem scale_normalizes_witness :
    (∀ p ∈ [0, 128, 255], p ≤ 255) ∧
      ∀ q ∈ (scale [0, 128, 255] 7).1, 0 ≤ q ∧ q ≤ 1 :=
  ⟨by decide, scale_normalizes [0, 128, 255] 7 (by decide)⟩

/-- Claim C2: the validation partition (`take num_validation_samples` of
the shuffled training split) and the training partition (`skip` of the
same count) are disjoint for a duplicate-free dataset, and their
concatenation in order reconstructs the whole shuffled sequence. -/
theorem validation_train_partition (shuffled : List Sample)
    (hnd : shuffled.Nodup) :
    validation_data shuffled ++ train_data shuffled = shuffled ∧
      (validation_data shuffled).Disjoint (train_data shuffled) := by
  refine ⟨List.take_append_drop _ _, ?_⟩
  exact List.disjoint_take_drop hnd le_rfl

/-- Witness for C2 at a concrete two-sample dataset. -/
theorem validation_train_partition_witness :
    validation_data [([1], 0), ([2], 1)] ++ train_data [([1], 0), ([2], 1)] =
        [([1], 0), ([2], 1)] ∧
      (validation_data [([1], 0), ([2], 1)]).Disjoint
        (train_data [([1], 0), ([2], 1)]) :=
  validation_train_partition [([1], 0), ([2], 1)] (by decide)

/-- Claim C3: every partition is grouped into fixed-size batches — the
training partition into batches of `BATCH_SIZE = 100`, the validation
partition into a single batch of `num_validation_samples`, and the test
partition into a single batch of `num_test_samples`. -/
theorem partitions_batched (shuffled test : List Sample)
    (hs : shuffled.length = numTrainExamples)
    (ht : test.length = num_test_samples) :
    BATCH_SIZE = 100 ∧
      (∀ c ∈ train_batched shuffled, c.length = BATCH_SIZE) ∧
      validation_batched shuffled = [validation_data shuffled] ∧
      (validation_data shuffled).length = num_validation_samples ∧
      test_batched test = [test] := by
  have hv : num_validation_samples = 6000 := num_validation_samples_eq
  have hlen : (train_data shuffled).length = 54000 := by
    rw [train_data, List.length_drop, hs, hv, numTrainExamples]
  have hvallen : (validation_data shuffled).length = 6000 := by
    rw [validation_data, List.length_take, hv, hs, numTrainExamples]
    norm_num
  refine ⟨rfl, ?_, ?_, ?_, ?_⟩
  · intro c hc
    exact ((batch_spec 100 (by norm_num) 54000 (train_data shuffled) hlen
      ⟨540, by norm_num⟩).1 c hc).trans rfl
  · rw [validation_batched, hv]
    exact batch_single 6000 (validation_data shuffled) (by norm_num)
      (by rw [← List.length_pos]; omega) (by omega)
  · rw [hvallen, hv]
  · rw [test_batched]
    exact batch_single num_test_samples test
      (by rw [num_test_samples, numTestExamples]; norm_num)
      (by rw [← List.length_pos, ht, num_test_samples, numTestExamples]; norm_num)
      (le_of_eq ht)

/-- Witness for C3 at concrete datasets of the MNIST split sizes. -/
theorem partitions_batched_witness :
    BATCH_SIZE = 100 ∧
      (∀ c ∈ train_batched (List.replicate 60000 (([], 0) : Sample)),
        c.length = BATCH_SIZE) ∧
      validation_batched (List.replicate 60000 (([], 0) : Sample)) =
        [validation_data (List.replicate 60000 (([], 0) : Sample))] ∧
      (validation_data (List.replicate 60000 (([], 0) : Sample))).length =
        num_validation_samples ∧
      test_batched (List.replicate 10000 (([], 0) : Sample)) =
        [List.replicate 10000 (([], 0) : Sample)] :=
  partitions_batched (List.replicate 60000 (([], 0) : Sample))
    (List.replicate 10000 (([], 0) : Sample))
    (by rw [List.length_replicate, numTrainExamples])
    (by rw [List.length_replicate, num_test_samples, numTestExamples])

/-- Claim C4: the classifier is exactly the fixed layer sequence Flatten
with input shape (28, 28, 1), two hidden Dense layers of size 50 with relu
activation, and a final Dense layer of size 10 with the normalizing
softmax activation; the stack maps any input through to the 10 class
outputs, and the Flatten layer produces the 784 = `input_size` vector. -/
theorem model_layer_sequence :
    model = [LayerSpec.Flatten (28, 28, 1),
             LayerSpec.Dense 50 Activation.relu,
             LayerSpec.Dense 50 Activation.relu,
             LayerSpec.Dense 10 Activation.softmax] ∧
      (∀ d, modelOutputDim model d = output_size) ∧
      layerOut (LayerSpec.Flatten (28, 28, 1)) 0 = input_size ∧
      model.length = 4 :=
  ⟨rfl, fun _ => rfl, rfl, rfl⟩

/-- Claim C5: for every parameter assignment and every input image, the
model's output is a probability distribution over the 10 class labels —
all components nonnegative and summing to 1 — because the final layer
applies softmax. -/
theorem modelForward_prob_distribution (p : ModelParams)
    (img : Fin 28 → Fin 28 → ℝ) :
    (∀ i, 0 ≤ modelForward p img i) ∧ ∑ i, modelForward p img i = 1 := by
  rw [modelForward]
  set z := denseAffine p.layer3
    (reluVec (denseAffine p.layer2
      (reluVec (denseAffine p.layer1 (flattenImage img))))) with hz
  have hS : 0 < ∑ j, Real.exp (z j) :=
    Finset.sum_pos (fun j _ => Real.exp_pos (z j)) Finset.univ_nonempty
  constructor
  · intro i
    exact div_nonneg (Real.exp_pos (z i)).le hS.le
  · simp only [softmax]
    rw [← Finset.sum_div]
    exact div_self hS.ne'

/-- Claim C9: `scale` changes only the image component of a sample — the
label in the returned pair is identical to the label in the input pair. -/
theorem scale_preserves_label (image : List ℕ) (label : ℕ) :
    (scale image label).2 = label :=
  rfl

/-- Claim C6: training performs exactly `NUM_EPOCHS = 5` complete passes
over the batched training data; validation is evaluated once after each
pass and never before a pass completes (in every prefix of the trace the
validation count is covered by full completed passes); the trace is finite
of length 5 * (nb + 1), so training terminates after 5 epochs. -/
theorem fit_five_epochs (nb k : ℕ) :
    NUM_EPOCHS = 5 ∧
      (fitTrace NUM_EPOCHS nb).count FitEvent.validate = 5 ∧
      (fitTrace NUM_EPOCHS nb).count FitEvent.trainBatch = 5 * nb ∧
      (fitTrace NUM_EPOCHS nb).length = 5 * (nb + 1) ∧
      nb * (((fitTrace NUM_EPOCHS nb).take k).count FitEvent.validate) ≤
        ((fitTrace NUM_EPOCHS nb).take k).count FitEvent.trainBatch :=
  ⟨rfl, fitTrace_count_validate 5 nb, fitTrace_count_trainBatch 5 nb,
    fitTrace_length 5 nb, fitTrace_take_count 5 nb k⟩

/-- Claim C7: the script evaluates the trained model exactly once, after
the training stage, against the test partition; the test partition (being
disjoint from the training split that validation and training data are
drawn from) is disjoint from both; and the final report carries both the
test loss and the test accuracy. -/
theorem evaluate_once_heldout (shuffled mtrain mtest : List Sample)
    (hperm : shuffled.Perm mtrain) (hdisj : mtrain.Disjoint mtest) :
    script.count ScriptStep.evaluateModel = 1 ∧
      script.indexOf ScriptStep.fitModel < script.indexOf ScriptStep.evaluateModel ∧
      (validation_data shuffled).Disjoint mtest ∧
      (train_data shuffled).Disjoint mtest ∧
      Function.Injective reportMessage := by
  have hsub : shuffled ⊆ mtrain := hperm.subset
  refine ⟨by decide, by decide, ?_, ?_, ?_⟩
  · intro a ha hb
    exact hdisj (hsub (List.take_subset _ _ ha)) hb
  · intro a ha hb
    exact hdisj (hsub (List.drop_subset _ _ ha)) hb
  · intro r₁ r₂ hr
    have h1 : r₁.loss = r₂.loss := congrArg Prod.fst hr
    have h2 : r₁.accuracy * 100 = r₂.accuracy * 100 := congrArg Prod.snd hr
    have h3 : r₁.accuracy = r₂.accuracy :=
      mul_right_cancel₀ (by norm_num : (100 : ℚ) ≠ 0) h2
    cases r₁
    cases r₂
    simp_all

/-- Witness for C7 at a concrete one-sample training split and a disjoint
one-sample test split. -/
theorem evaluate_once_heldout_witness :
    script.count ScriptStep.evaluateModel = 1 ∧
      script.indexOf ScriptStep.fitModel < script.indexOf ScriptStep.evaluateModel ∧
      (validation_data [([1], 0)]).Disjoint [([2], 1)] ∧
      (train_data [([1], 0)]).Disjoint [([2], 1)] ∧
      Function.Injective reportMessage :=
  evaluate_once_heldout [([1], 0)] [([1], 0)] [([2], 1)] (List.Perm.refl _)
    (by
      intro a ha hb
      rw [List.mem_singleton] at ha hb
      rw [ha] at hb
      exact absurd hb (by decide))

/-- Claim C10: the validation sample count is the integer truncation of
0.1 times the 60000 train examples, namely 6000; the remaining 54000
training samples divide evenly into exactly 540 batches of exactly 100
samples each, with no partial final batch. -/
theorem validation_and_batch_counts (shuffled : List Sample)
    (hs : shuffled.length = numTrainExamples) :
    num_validation_samples = 6000 ∧
      (train_data shuffled).length = 54000 ∧
      (train_batched shuffled).length = 540 ∧
      ∀ c ∈ train_batched shuffled, c.length = 100 := by
  have hv : num_validation_samples = 6000 := num_validation_samples_eq
  have hlen : (train_data shuffled).length = 54000 := by
    rw [train_data, List.length_drop, hs, hv, numTrainExamples]
  have hspec := batch_spec 100 (by norm_num) 54000 (train_data shuffled) hlen
    ⟨540, by norm_num⟩
  exact ⟨hv, hlen, by rw [train_batched, BATCH_SIZE]; rw [hspec.2], hspec.1⟩

/-- Witness for C10 at a concrete dataset of the MNIST train-split size. -/
theorem validation_and_batch_counts_witness :
    num_validation_samples = 6000 ∧
      (train_data (List.replicate 60000 (([], 0) : Sample))).length = 54000 ∧
      (train_batched (List.replicate 60000 (([], 0) : Sample))).length = 540 ∧
      ∀ c ∈ train_batched (List.replicate 60000 (([], 0) : Sample)),
        c.length = 100 :=
  validation_and_batch_counts (List.replicate 60000 (([], 0) : Sample))
    (by rw [List.length_replicate, numTrainExamples])
